import Mathlib

/-!
Verification of the vsfmpy VSFM wrapper (src/vsfmpy.py).

Shallow embedding notes.

File contents are modelled as `List Nat` with each element a byte value
(0-255).  `struct` native formats are embedded for the platform the wrapper
targets (VSFM.exe's x86 Windows): little-endian, `L` (C unsigned long) is
4 bytes, and the native format `ffBBBff` carries one zero alignment-padding
byte before the second float pair, so a location record is 20 bytes --
exactly the `fileobj.read(4*5)` the source performs.

Python float64 values that hold float32 data are modelled by their 32-bit
patterns (`Nat`, `< 2^32` where it matters); `struct.pack('f', v)`
and the matching unpack are then the exact 4-byte little-endian
(de)serialization of that pattern.  The only genuine floating-point
arithmetic in the codec -- `kp.angle*tau/360` on write and `kp[6]*360/tau`
on read -- is abstracted as explicit conversion functions `d2r` (degrees to
a float32 radian pattern, with rounding) and `r2d` (float32 radian pattern
to a degree value); theorems quantify over them.

Fallible operations return `Except PyErr`; the constructors name the
Python exception classes the source can raise.
-/

/-- Python exception classes reachable from the embedded code. -/
inductive PyErr where
  | structError   -- struct.error (buffer too short / value out of range)
  | unicodeError  -- UnicodeDecodeError (non-ASCII byte in the 8-byte tag)
  | keyError      -- KeyError (dict lookup miss)
  | typeError     -- TypeError (tuple += list)
  | valueError    -- ValueError (named by the dead handler in the source)
deriving DecidableEq, Repr

/-- Boolean success test for `Except`. -/
def exceptOk {α : Type} : Except PyErr α → Bool
  | .ok _ => true
  | .error _ => false

/-- 4-byte little-endian serialization, as `struct.pack` emits for a
4-byte unsigned field or a float32 bit pattern. -/
def u32le (n : Nat) : List Nat :=
  [n % 256, n / 256 % 256, n / 65536 % 256, n / 16777216 % 256]

/-- Little-endian value of the first four bytes of a chunk, as
`struct.unpack_from` reads a 4-byte field. -/
def le32 (l : List Nat) : Nat :=
  l.getD 0 0 + 256 * l.getD 1 0 + 65536 * l.getD 2 0 + 16777216 * l.getD 3 0

/-- The in-memory keypoint (the `KeyPoint` class of the source: the codec
uses `x`, `y`, `size` and `angle`; `response`, `octave` and `class_id` are
constant carry-overs never touched by the codec).  `x`, `y`, `size` are
float32 bit patterns; the angle (degrees) lives in an abstract type `D`
because the code subjects it to float multiplication. -/
structure KeyPoint (D : Type) where
  x : Nat
  y : Nat
  size : Nat
  angle : D
deriving DecidableEq, Repr

/-- The 7-tuple unpacked from one `ffBBBff` location record:
x, y, three color bytes, scale, orientation in radians. -/
structure LocRec where
  x : Nat
  y : Nat
  r : Nat
  g : Nat
  b : Nat
  scale : Nat
  orient : Nat
deriving DecidableEq, Repr

/-- `struct.unpack_from('ffBBBff', chunk)` on a 20-byte chunk: floats at
offsets 0, 4, 12, 16; color bytes at 8, 9, 10; byte 11 is the alignment
pad the native format inserts before the third float. -/
def unpackLoc (chunk : List Nat) : LocRec :=
  { x := le32 (chunk.take 4)
    y := le32 ((chunk.drop 4).take 4)
    r := chunk.getD 8 0
    g := chunk.getD 9 0
    b := chunk.getD 10 0
    scale := le32 ((chunk.drop 12).take 4)
    orient := le32 ((chunk.drop 16).take 4) }

/-- The count field: bytes 8-11 of the file, little-endian
(`header[8]` in the source). -/
def sift_count (bs : List Nat) : Nat := le32 ((bs.drop 8).take 4)

/-- The 8 tag bytes of `'SIFTV4.0'`. -/
def sift_tag : List Nat := [83, 73, 70, 84, 86, 52, 46, 48]

/-- The loop `for i in range(nfeatures)` reading one 20-byte location
record per iteration; `fileobj.read(4*5)` returns what remains, and
`struct.unpack_from` raises `struct.error` when that is under 20 bytes. -/
def readLocs : Nat → List Nat → Except PyErr (List LocRec × List Nat)
  | 0, bs => .ok ([], bs)
  | n + 1, bs =>
    if bs.length < 20 then .error .structError
    else
      match readLocs n (bs.drop 20) with
      | .error e => .error e
      | .ok (ls, rest) => .ok (unpackLoc (bs.take 20) :: ls, rest)

/-- The loop reading one 128-byte descriptor record per iteration
(`struct.unpack_from('B'*128, ...)`, `struct.error` when short). -/
def readDescs : Nat → List Nat → Except PyErr (List (List Nat) × List Nat)
  | 0, bs => .ok ([], bs)
  | n + 1, bs =>
    if bs.length < 128 then .error .structError
    else
      match readDescs n (bs.drop 128) with
      | .error e => .error e
      | .ok (ds, rest) => .ok (bs.take 128 :: ds, rest)

/-- `read_vsfm_sift`, on the bytes of the file.  Reads the 20-byte header
(struct.error when short), utf-8-decodes the 8 tag bytes one by one
(UnicodeDecodeError on a non-ASCII byte), takes the count from bytes 8-11,
reads that many location then descriptor records, discards any trailing
bytes, and builds keypoints as `KeyPoint(kp[0], kp[1], kp[5],
kp[6]*360/tau)` -- the angle conversion is the abstract `r2d`. -/
def read_vsfm_sift {D : Type} (r2d : Nat → D) (bs : List Nat) :
    Except PyErr (List (KeyPoint D) × List (List Nat)) :=
  if bs.length < 20 then .error .structError
  else if (bs.take 8).all (fun b => b < 128) then
    match readLocs (sift_count bs) (bs.drop 20) with
    | .error e => .error e
    | .ok (locs, rest) =>
      match readDescs (sift_count bs) rest with
      | .error e => .error e
      | .ok (descs, _buf) =>
        .ok (locs.map (fun kp =>
              { x := kp.x, y := kp.y, size := kp.scale, angle := r2d kp.orient }),
             descs)
  else .error .unicodeError

/-- A descriptor as handed to `write_vsfm_sift`, tagged with its Python
sequence kind: the source converts `list` (and, with OpenCV present,
`ndarray`, which behaves identically after the `[int(val) ...]`
conversion) but leaves other sequences such as `tuple` untouched. -/
inductive PySeq where
  | plist (l : List Nat)
  | ptuple (l : List Nat)
deriving DecidableEq, Repr

/-- The per-descriptor normalization of `write_vsfm_sift`: lists are
zero-padded (`desc += [0]*(128-len(desc))`) or truncated
(`desc[0:128]`); a tuple shorter than 128 hits `tuple += list`, which
raises `TypeError`. -/
def normDesc : PySeq → Except PyErr (List Nat)
  | .plist l =>
    if l.length < 128 then .ok (l ++ List.replicate (128 - l.length) 0)
    else if l.length > 128 then .ok (l.take 128)
    else .ok l
  | .ptuple l =>
    if l.length < 128 then .error .typeError
    else if l.length > 128 then .ok (l.take 128)
    else .ok l

/-- `struct.pack('B'*128, *desc)`: every value must lie in 0-255
(naturals model the nonnegative ints; `struct.error` otherwise). -/
def packB128 (l : List Nat) : Except PyErr (List Nat) :=
  if l.all (fun v => v ≤ 255) then .ok l else .error .structError

/-- The descriptor loop of `write_vsfm_sift`, in order; the bytes of each
descriptor block are emitted left to right. -/
def writeDescs : List PySeq → Except PyErr (List Nat)
  | [] => .ok []
  | d :: ds =>
    match normDesc d with
    | .error e => .error e
    | .ok nd =>
      match packB128 nd with
      | .error e => .error e
      | .ok db =>
        match writeDescs ds with
        | .error e => .error e
        | .ok rest => .ok (db ++ rest)

/-- `struct.pack('ffBBBff', kp.pt[0], kp.pt[1], 0, 0, 0, kp.size,
kp.angle*tau/360)`: three zero color bytes plus the one zero alignment pad
byte of the native format, 20 bytes in all.  `d2r` is the abstract
degree-to-float32-radian conversion. -/
def packLoc {D : Type} (d2r : D → Nat) (kp : KeyPoint D) : List Nat :=
  u32le kp.x ++ u32le kp.y ++ [0, 0, 0, 0] ++ u32le kp.size ++ u32le (d2r kp.angle)

/-- `write_vsfm_sift`, producing the bytes of the file: the 20-byte header
(`struct.pack` raises when the count does not fit an unsigned 4-byte
field), one 20-byte record per keypoint, one 128-byte block per
descriptor (the source has no keypoint/descriptor count check), and the
trailer `b'\xFFEOF'`. -/
def write_vsfm_sift {D : Type} (d2r : D → Nat) (keypoints : List (KeyPoint D))
    (descriptors : List PySeq) : Except PyErr (List Nat) :=
  if keypoints.length < 4294967296 then
    match writeDescs descriptors with
    | .error e => .error e
    | .ok db =>
      .ok (sift_tag ++ u32le keypoints.length ++ u32le 5 ++ u32le 128
           ++ (keypoints.map (packLoc d2r)).flatten ++ db ++ [255, 69, 79, 70])
  else .error .structError

/-- An OpenCV `DMatch`: the codec only reads `queryIdx` and `trainIdx`. -/
structure DMatch where
  queryIdx : Nat
  trainIdx : Nat
deriving DecidableEq, Repr

/-- `write_feature_matches`, modelled as the full text written to the
file: for each `(i, j, matches)` record it performs three `write` calls
in order -- the header line, the query-index line and the train-index
line, each newline-terminated.  `filenames` models the dict on its
in-range keys. -/
def write_feature_matches (matches_list : List (Nat × Nat × List DMatch))
    (filenames : Nat → String) : String :=
  matches_list.foldl (fun acc rec =>
    acc ++ (filenames rec.1 ++ " " ++ filenames rec.2.1 ++ " "
            ++ toString rec.2.2.length ++ "\n")
        ++ (String.intercalate " " (rec.2.2.map (fun m => toString m.queryIdx)) ++ "\n")
        ++ (String.intercalate " " (rec.2.2.map (fun m => toString m.trainIdx)) ++ "\n")) ""

/-- The three lines the spec prescribes for one match record. -/
def matchRecordLines (filenames : Nat → String) (rec : Nat × Nat × List DMatch) :
    List String :=
  [filenames rec.1 ++ " " ++ filenames rec.2.1 ++ " " ++ toString rec.2.2.length,
   String.intercalate " " (rec.2.2.map (fun m => toString m.queryIdx)),
   String.intercalate " " (rec.2.2.map (fun m => toString m.trainIdx))]

/-- A list of lines rendered as newline-terminated text. -/
def linesText : List String → String
  | [] => ""
  | l :: ls => l ++ "\n" ++ linesText ls

/-- The spec-side view of the match file: the records' line triples,
flattened in the order given. -/
def matchFileText (filenames : Nat → String)
    (matches_list : List (Nat × Nat × List DMatch)) : String :=
  linesText ((matches_list.map (matchRecordLines filenames)).flatten)

/-- The nested command registry (`vsfm_command_dict` lives in the
external `vsfm_data` module: a dict of dicts terminating in integer
command codes, here an arbitrary such tree). -/
inductive Reg where
  | leaf (code : Int)
  | node (entries : List (String × Reg))

/-- One step of `last = last[command]`: a dict miss raises `KeyError`; a
subscript on an already-resolved integer raises `TypeError`. -/
def regStep : Reg → String → Except PyErr Reg
  | .leaf _, _ => .error .typeError
  | .node entries, s =>
    match entries.lookup s with
    | none => .error .keyError
    | some r => .ok r

/-- The resolution loop `for command in tuple_command: last = last[command]`. -/
def regResolve : Reg → List String → Except PyErr Reg
  | r, [] => .ok r
  | r, s :: rest =>
    match regStep r s with
    | .error e => .error e
    | .ok r2 => regResolve r2 rest

/-- Observable outcome of `send_vsfm_command_tup`: what was handed to
`send_vsfm_command_num` (value resolved plus optional parameter), whether
the `except ValueError` handler logged the command as not found, and any
exception that escapes the function. -/
structure DispatchResult where
  sent : List (Reg × Option String)
  loggedNotFound : Bool
  uncaught : Option PyErr

/-- `send_vsfm_command_tup`: resolves the tuple through the registry and
sends the result.  The `try` block's failures are `KeyError` or
`TypeError`, but the sole handler is `except ValueError` -- so a lookup
miss escapes uncaught and the not-found log line never runs. -/
def send_vsfm_command_tup (registry : Reg) (tuple_command : List String)
    (param : Option String) : DispatchResult :=
  match regResolve registry tuple_command with
  | .ok last => { sent := [(last, param)], loggedNotFound := false, uncaught := none }
  | .error .valueError => { sent := [], loggedNotFound := true, uncaught := none }
  | .error e => { sent := [], loggedNotFound := false, uncaught := some e }

/-- Result of `open_socket`: whether `sock.connect` ever succeeded, how
many connect attempts ran, and the `time.sleep` calls made (0.1 s after
each failed attempt, 0.05 s before returning). -/
structure SockState where
  connected : Bool
  attempts : Nat
  sleeps : List ℚ
deriving DecidableEq, Repr

/-- The `for _ in range(10)` connect-retry loop: `conn i` tells whether
the i-th `sock.connect` succeeds; success breaks, failure sleeps 0.1 s
and retries. -/
def connectLoop (conn : Nat → Bool) : Nat → Nat → SockState → SockState
  | 0, _, st => st
  | fuel + 1, i, st =>
    if conn i then { st with connected := true, attempts := st.attempts + 1 }
    else connectLoop conn fuel (i + 1)
      { st with attempts := st.attempts + 1, sleeps := st.sleeps ++ [1 / 10] }

/-- `open_socket`: runs the retry loop, sleeps 0.05 s, and returns the
socket unconditionally -- no exception is raised when every attempt
failed. -/
def open_socket (conn : Nat → Bool) : Except PyErr SockState :=
  let st := connectLoop conn 10 0 { connected := false, attempts := 0, sleeps := [] }
  .ok { st with sleeps := st.sleeps ++ [1 / 20] }

/-- Substring test: some suffix of the haystack starts with the needle
(Python `str.find(...) != -1`). -/
def strContains (hay needle : List Char) : Bool :=
  (List.range (hay.length + 1)).any (fun i => needle.isPrefixOf (hay.drop i))

/-- `vsfm_complete_flags` of `wait_until_complete`. -/
def vsfm_complete_flags : List String := ["*command processed*", "done", "finished"]

/-- The flag scan of the except-branch: any completion marker occurring
in the last-received chunk (the `b''`-repr wrapping `str` applies to the
bytes does not affect whether a marker occurs). -/
def hasFlag (s : String) : Bool :=
  vsfm_complete_flags.any (fun f => strContains s.data f.data)

/-- State of the `wait_until_complete` polling loop: `waiting` is the
loop flag, `bytesRec` the last-received chunk, `completed` records that
the close-flag branch fired and `timedOut` that the timeout branch
fired. -/
structure WaitSt where
  waiting : Bool
  bytesRec : String
  completed : Bool
  timedOut : Bool
deriving DecidableEq, Repr

/-- Initial state: `waiting = True`, `bytes_rec = b''`. -/
def waitInit : WaitSt :=
  { waiting := true, bytesRec := "", completed := false, timedOut := false }

/-- One iteration of the polling loop.  `recvO i` is what the i-th
non-blocking `sock.recv(256)` yields (`none` models the raises-when-empty
case the bare `except` absorbs); data replaces `bytes_rec` with no flag
check, while an empty buffer triggers the flag scan of the last chunk.
The wall-clock check `time.time() - begin > timeout` runs at the end of
every iteration; `clock i` is the time it observes. -/
def waitStep (recvO : Nat → Option String) (clock : Nat → ℚ) (tbegin : ℚ)
    (timeout : Option ℚ) (i : Nat) (st : WaitSt) : WaitSt :=
  if st.waiting then
    let st1 :=
      match recvO i with
      | some chunk => { st with bytesRec := chunk }
      | none =>
        if hasFlag st.bytesRec then { st with waiting := false, completed := true }
        else st
    match timeout with
    | none => st1
    | some t =>
      if clock i - tbegin > t then { st1 with waiting := false, timedOut := true }
      else st1
  else st

/-- The state of `wait_until_complete` after `n` loop iterations (once
`waiting` is false the loop has exited and the state is final).  The
function body raises nothing: the only exception source, the empty
`recv`, is swallowed by the bare `except`. -/
def waitRun (recvO : Nat → Option String) (clock : Nat → ℚ) (tbegin : ℚ)
    (timeout : Option ℚ) : Nat → WaitSt
  | 0 => waitInit
  | n + 1 => waitStep recvO clock tbegin timeout n (waitRun recvO clock tbegin timeout n)

/-! Serialization helper lemmas. -/

theorem le32_u32le (n : Nat) (h : n < 4294967296) : le32 (u32le n) = n := by
  simp only [le32, u32le, List.getD]
  simp only [List.get?_cons_zero, List.get?_cons_succ, Option.getD_some]
  omega

theorem u32le_length (n : Nat) : (u32le n).length = 4 := rfl

theorem packLoc_length {D : Type} (d2r : D → Nat) (kp : KeyPoint D) :
    (packLoc d2r kp).length = 20 := by
  simp [packLoc, u32le]

theorem unpackLoc_packLoc {D : Type} (d2r : D → Nat) (kp : KeyPoint D)
    (hx : kp.x < 4294967296) (hy : kp.y < 4294967296)
    (hs : kp.size < 4294967296) (ha : d2r kp.angle < 4294967296) :
    unpackLoc (packLoc d2r kp) =
      { x := kp.x, y := kp.y, r := 0, g := 0, b := 0,
        scale := kp.size, orient := d2r kp.angle } := by
  simp only [unpackLoc, packLoc, u32le, le32, List.cons_append, List.nil_append,
    List.take_cons, List.take_nil, List.drop_succ_cons, List.drop_zero, List.getD,
    List.get?_cons_zero, List.get?_cons_succ, Option.getD_some, LocRec.mk.injEq,
    List.take_succ_cons, and_true, true_and]
  omega

/-! Record-loop helper lemmas. -/

theorem readLocs_flatten {D : Type} (d2r : D → Nat) (kps : List (KeyPoint D))
    (rest : List Nat)
    (hb : ∀ kp ∈ kps, kp.x < 4294967296 ∧ kp.y < 4294967296 ∧
          kp.size < 4294967296 ∧ d2r kp.angle < 4294967296) :
    readLocs kps.length ((kps.map (packLoc d2r)).flatten ++ rest) =
      .ok (kps.map (fun kp =>
        { x := kp.x, y := kp.y, r := 0, g := 0, b := 0,
          scale := kp.size, orient := d2r kp.angle }), rest) := by
  induction kps with
  | nil => simp [readLocs]
  | cons kp kps ih =>
    obtain ⟨hx, hy, hs, ha⟩ := hb kp (List.mem_cons_self kp kps)
    have h20 : (packLoc d2r kp).length = 20 := packLoc_length d2r kp
    simp only [List.map_cons, List.flatten_cons, List.length_cons, List.append_assoc]
    simp only [readLocs]
    rw [if_neg (by simp [List.length_append, h20]),
        List.take_left' h20, List.drop_left' h20,
        ih (fun k hk => hb k (List.mem_cons_of_mem kp hk)),
        unpackLoc_packLoc d2r kp hx hy hs ha]

theorem readDescs_flatten (ds : List (List Nat)) (rest : List Nat)
    (h : ∀ d ∈ ds, d.length = 128) :
    readDescs ds.length (ds.flatten ++ rest) = .ok (ds, rest) := by
  induction ds with
  | nil => simp [readDescs]
  | cons d ds ih =>
    have h128 : d.length = 128 := h d (List.mem_cons_self d ds)
    simp only [List.flatten_cons, List.length_cons, List.append_assoc]
    simp only [readDescs]
    rw [if_neg (by simp [List.length_append, h128]),
        List.take_left' h128, List.drop_left' h128,
        ih (fun x hx => h x (List.mem_cons_of_mem d hx))]

theorem readLocs_short (n : Nat) (bs : List Nat) (h : bs.length < 20 * n) :
    readLocs n bs = .error PyErr.structError := by
  induction n generalizing bs with
  | zero => omega
  | succ n ih =>
    simp only [readLocs]
    by_cases h20 : bs.length < 20
    · simp [h20]
    · rw [if_neg h20, ih (bs.drop 20) (by simp [List.length_drop]; omega)]

theorem readDescs_short (n : Nat) (bs : List Nat) (h : bs.length < 128 * n) :
    readDescs n bs = .error PyErr.structError := by
  induction n generalizing bs with
  | zero => omega
  | succ n ih =>
    simp only [readDescs]
    by_cases h128 : bs.length < 128
    · simp [h128]
    · rw [if_neg h128, ih (bs.drop 128) (by simp [List.length_drop]; omega)]

theorem readLocs_enough (n : Nat) (bs : List Nat) (h : 20 * n ≤ bs.length) :
    ∃ ls, readLocs n bs = .ok (ls, bs.drop (20 * n)) := by
  induction n generalizing bs with
  | zero => exact ⟨[], by simp [readLocs]⟩
  | succ n ih =>
    obtain ⟨ls, hls⟩ := ih (bs.drop 20) (by simp [List.length_drop]; omega)
    refine ⟨unpackLoc (bs.take 20) :: ls, ?_⟩
    simp only [readLocs]
    rw [if_neg (by omega), hls, List.drop_drop]
    have : 20 + 20 * n = 20 * (n + 1) := by omega
    rw [this]

theorem readLocs_ok_props (n : Nat) (bs : List Nat) (ls : List LocRec)
    (rest : List Nat) (h : readLocs n bs = .ok (ls, rest)) :
    ls.length = n ∧ rest ⊆ bs := by
  induction n generalizing bs ls rest with
  | zero =>
    simp only [readLocs, Except.ok.injEq, Prod.mk.injEq] at h
    obtain ⟨h1, h2⟩ := h
    exact ⟨by simp [← h1], by simp [← h2]⟩
  | succ n ih =>
    simp only [readLocs] at h
    by_cases h20 : bs.length < 20
    · simp [h20] at h
    · rw [if_neg h20] at h
      cases hrec : readLocs n (bs.drop 20) with
      | error e => rw [hrec] at h; cases h
      | ok p =>
        obtain ⟨ls2, rest2⟩ := p
        rw [hrec] at h
        simp only [Except.ok.injEq, Prod.mk.injEq] at h
        obtain ⟨h1, h2⟩ := h
        obtain ⟨hl, hsub⟩ := ih (bs.drop 20) ls2 rest2 hrec
        subst h2
        constructor
        · simp [← h1, hl]
        · exact hsub.trans (List.drop_subset 20 bs)

theorem readDescs_ok_props (n : Nat) (bs : List Nat) (ds : List (List Nat))
    (rest : List Nat) (h : readDescs n bs = .ok (ds, rest)) :
    ds.length = n ∧ ∀ d ∈ ds, d.length = 128 ∧ d ⊆ bs := by
  induction n generalizing bs ds rest with
  | zero =>
    simp only [readDescs, Except.ok.injEq, Prod.mk.injEq] at h
    obtain ⟨h1, _⟩ := h
    exact ⟨by simp [← h1], by simp [← h1]⟩
  | succ n ih =>
    simp only [readDescs] at h
    by_cases h128 : bs.length < 128
    · simp [h128] at h
    · rw [if_neg h128] at h
      cases hrec : readDescs n (bs.drop 128) with
      | error e => rw [hrec] at h; cases h
      | ok p =>
        obtain ⟨ds2, rest2⟩ := p
        rw [hrec] at h
        simp only [Except.ok.injEq, Prod.mk.injEq] at h
        obtain ⟨h1, _⟩ := h
        obtain ⟨hl, hprops⟩ := ih (bs.drop 128) ds2 rest2 hrec
        constructor
        · simp [← h1, hl]
        · intro d hd
          rw [← h1] at hd
          rcases List.mem_cons.mp hd with heq | hmem
          · subst heq
            exact ⟨by simp [List.length_take]; omega, List.take_subset 128 bs⟩
          · obtain ⟨hdl, hdsub⟩ := hprops d hmem
            exact ⟨hdl, hdsub.trans (List.drop_subset 128 bs)⟩

/-! Descriptor-writer helper lemmas. -/

theorem normDesc_plist (l : List Nat) :
    normDesc (.plist l) =
      .ok (l.take 128 ++ List.replicate (128 - l.length) 0) := by
  simp only [normDesc]
  by_cases h1 : l.length < 128
  · rw [if_pos h1, List.take_of_length_le (by omega)]
  · by_cases h2 : l.length > 128
    · rw [if_neg h1, if_pos h2]
      have h0 : 128 - l.length = 0 := by omega
      simp [h0]
    · have hl : l.length = 128 := by omega
      rw [if_neg h1, if_neg h2]
      have h0 : 128 - l.length = 0 := by omega
      simp [h0, List.take_of_length_le (by omega : l.length ≤ 128)]

theorem padded_values (l : List Nat) (h : ∀ v ∈ l, v ≤ 255) :
    ∀ v ∈ l.take 128 ++ List.replicate (128 - l.length) 0, v ≤ 255 := by
  intro v hv
  rcases List.mem_append.mp hv with h1 | h2
  · exact h v (List.take_subset 128 l h1)
  · rw [List.eq_of_mem_replicate h2]
    omega

theorem padded_length (l : List Nat) :
    (l.take 128 ++ List.replicate (128 - l.length) 0).length = 128 := by
  simp only [List.length_append, List.length_take, List.length_replicate]
  omega

theorem packB128_ok (l : List Nat) (h : ∀ v ∈ l, v ≤ 255) :
    packB128 l = .ok l := by
  simp only [packB128, if_pos]
  rw [if_pos]
  rw [List.all_eq_true]
  intro v hv
  exact decide_eq_true (h v hv)

theorem writeDescs_plists (ds : List (List Nat)) (h : ∀ d ∈ ds, ∀ v ∈ d, v ≤ 255) :
    writeDescs (ds.map PySeq.plist) =
      .ok ((ds.map (fun d => d.take 128 ++ List.replicate (128 - d.length) 0)).flatten) := by
  induction ds with
  | nil => rfl
  | cons d ds ih =>
    simp only [List.map_cons, writeDescs, List.flatten_cons,
      normDesc_plist d,
      packB128_ok _ (padded_values d (h d (List.mem_cons_self d ds))),
      ih (fun x hx => h x (List.mem_cons_of_mem d hx)),
      List.append_assoc]


/-! Connect-retry, match-writer and polling-loop helper lemmas. -/

theorem connectLoop_all_fail (conn : Nat → Bool) :
    ∀ (fuel i : Nat) (st : SockState), (∀ j, j < fuel → conn (i + j) = false) →
      connectLoop conn fuel i st =
        { st with attempts := st.attempts + fuel,
                  sleeps := st.sleeps ++ List.replicate fuel (1 / 10) } := by
  intro fuel
  induction fuel with
  | zero => intro i st _; simp [connectLoop]
  | succ fuel ih =>
    intro i st h
    have h0 : conn i = false := by simpa using h 0 (by omega)
    have hrest : ∀ j, j < fuel → conn (i + 1 + j) = false := by
      intro j hj
      have h2 := h (j + 1) (by omega)
      have he : i + (j + 1) = i + 1 + j := by omega
      rw [he] at h2
      exact h2
    simp only [connectLoop, h0, Bool.false_eq_true, if_false]
    rw [ih (i + 1) _ hrest]
    have ha : st.attempts + 1 + fuel = st.attempts + (fuel + 1) := by omega
    rw [ha]
    simp [List.replicate_succ]

theorem write_feature_matches_go (f : Nat → String) :
    ∀ (ms : List (Nat × Nat × List DMatch)) (acc : String),
      ms.foldl (fun acc rec =>
        acc ++ (f rec.1 ++ " " ++ f rec.2.1 ++ " "
                ++ toString rec.2.2.length ++ "\n")
            ++ (String.intercalate " " (rec.2.2.map (fun m => toString m.queryIdx)) ++ "\n")
            ++ (String.intercalate " " (rec.2.2.map (fun m => toString m.trainIdx)) ++ "\n")) acc
      = acc ++ matchFileText f ms := by
  intro ms
  induction ms with
  | nil =>
    intro acc
    simp [matchFileText, linesText, String.append_empty]
  | cons m ms ih =>
    intro acc
    rw [List.foldl_cons, ih]
    simp only [matchFileText, matchRecordLines, List.map_cons, List.flatten_cons,
      List.cons_append, List.append_eq, List.nil_append, linesText,
      String.append_assoc]

theorem waitRun_inv (recvO : Nat → Option String) (clock : Nat → ℚ)
    (tbegin t : ℚ) (N : Nat)
    (hflag : ∀ i c, recvO i = some c → hasFlag c = false)
    (hMin : ∀ m, m < N → ¬ (clock m - tbegin > t)) :
    ∀ m, m ≤ N →
      (waitRun recvO clock tbegin (some t) m).waiting = true ∧
      hasFlag (waitRun recvO clock tbegin (some t) m).bytesRec = false ∧
      (waitRun recvO clock tbegin (some t) m).completed = false ∧
      (waitRun recvO clock tbegin (some t) m).timedOut = false := by
  intro m
  induction m with
  | zero =>
    intro _
    refine ⟨rfl, ?_, rfl, rfl⟩
    show hasFlag waitInit.bytesRec = false
    decide
  | succ m ih =>
    intro hm
    obtain ⟨hw, hf, hc, ht⟩ := ih (by omega)
    have htime : ¬ (clock m - tbegin > t) := hMin m (by omega)
    simp only [waitRun, waitStep, hw, if_true]
    cases hrecv : recvO m with
    | some c =>
      have hfc := hflag m c hrecv
      simp [hrecv, if_neg htime, hw, hfc, hc, ht]
    | none =>
      simp [hrecv, hf, if_neg htime, hw, hc, ht]

/-! Claim theorems. -/

/-- Claim C2 (code bug in the source): a command path whose segment is
absent from the registry raises `KeyError` from `last[command]`, but the
sole handler is `except ValueError`, so the miss escapes uncaught, the
not-found log line never runs, and nothing is handed to
`send_vsfm_command_num` -- the spec's logged-as-failed behavior is what
the dead handler evidently intended. -/
theorem send_tup_miss_uncaught :
    send_vsfm_command_tup (Reg.node []) ["nonexistent"] none =
      { sent := [], loggedNotFound := false, uncaught := some PyErr.keyError } := rfl

/-- Claim C3 counterexample: with every connect attempt failing,
`open_socket` returns the unconnected socket normally after 10 attempts
(0.1 s sleep after each, 0.05 s before returning) -- it does not fail
with any error, contrary to the claimed `ConnectionTimeoutError`. -/
theorem open_socket_returns_unconnected :
    open_socket (fun _ => false) =
      .ok { connected := false, attempts := 10,
            sleeps := List.replicate 10 (1 / 10) ++ [1 / 20] } := by
  rw [open_socket, connectLoop_all_fail (fun _ => false) 10 0 _ (fun j _ => rfl)]
  rfl

/-- Claim C3 (amended): when no listener ever accepts, `open_socket`
makes exactly 10 connect attempts with a fixed 0.1 s delay after each
failure, then returns the still-unconnected socket without raising
(the source defines no `ConnectionTimeoutError`). -/
theorem open_socket_exhausted (conn : Nat → Bool)
    (h : ∀ i, i < 10 → conn i = false) :
    open_socket conn =
      .ok { connected := false, attempts := 10,
            sleeps := List.replicate 10 (1 / 10) ++ [1 / 20] } := by
  rw [open_socket, connectLoop_all_fail conn 10 0 _ (fun j hj => by simpa using h j hj)]
  rfl

/-- Witness for `open_socket_exhausted` at a concrete oracle that only
accepts from the 11th attempt on. -/
theorem open_socket_exhausted_witness :
    open_socket (fun i => decide (10 ≤ i)) =
      .ok { connected := false, attempts := 10,
            sleeps := List.replicate 10 (1 / 10) ++ [1 / 20] } :=
  open_socket_exhausted _ (fun i hi => by
    simp only [decide_eq_false_iff_not]
    omega)

/-- Claim C4 counterexample: `write_vsfm_sift` succeeds on one keypoint
and zero descriptors -- the source performs no keypoint/descriptor count
check, so encoding does not fail when the counts differ. -/
theorem write_count_mismatch_succeeds :
    exceptOk (write_vsfm_sift (fun a : Nat => a)
      [{ x := 1, y := 2, size := 3, angle := 4 }] []) = true := rfl

/-- Claim C4 (amended): `write_vsfm_sift` performs no count check at all:
it succeeds for every keypoint list (of fewer than 2^32 entries) and
every list of byte-valued list descriptors, whether or not the two
counts agree, writing the keypoint count in the header and one 128-byte
block per descriptor. -/
theorem write_no_count_check {D : Type} (d2r : D → Nat)
    (kps : List (KeyPoint D)) (descs : List (List Nat))
    (hn : kps.length < 4294967296)
    (hv : ∀ d ∈ descs, ∀ v ∈ d, v ≤ 255) :
    exceptOk (write_vsfm_sift d2r kps (descs.map PySeq.plist)) = true := by
  rw [write_vsfm_sift, if_pos hn, writeDescs_plists descs hv]
  rfl

/-- Witness for `write_no_count_check` at one keypoint and two
descriptors. -/
theorem write_no_count_check_witness :
    exceptOk (write_vsfm_sift (fun a : Nat => a)
      [{ x := 1, y := 2, size := 3, angle := 4 }]
      ([[1], [2]].map PySeq.plist)) = true :=
  write_no_count_check _ _ _ (by decide) (by decide)

/-- Claim C7 counterexample: a descriptor supplied as a tuple of length
2 makes `write_vsfm_sift` raise `TypeError` at `desc += [0]*(128 -
len(desc))` -- the silent normalization does not hold for every sequence
kind. -/
theorem write_tuple_desc_raises :
    write_vsfm_sift (fun a : Nat => a) [] [PySeq.ptuple [1, 2]] =
      .error PyErr.typeError := rfl

/-- Claim C7 (amended): for a descriptor supplied as a list of byte
values (0-255), `write_vsfm_sift` silently zero-pads it on the right
when shorter than 128 and truncates it to the first 128 when longer, and
writes exactly 128 unsigned bytes for it; descriptors of other sequence
kinds shorter than 128 (tuples) raise `TypeError` instead. -/
theorem desc_list_normalization (l : List Nat) (hv : ∀ v ∈ l, v ≤ 255) :
    write_vsfm_sift (fun a : Nat => a) [] [PySeq.plist l] =
      .ok (sift_tag ++ u32le 0 ++ u32le 5 ++ u32le 128
           ++ (l.take 128 ++ List.replicate (128 - l.length) 0)
           ++ [255, 69, 79, 70]) ∧
    (l.take 128 ++ List.replicate (128 - l.length) 0).length = 128 := by
  constructor
  · rw [write_vsfm_sift, if_pos (by simp),
        show [PySeq.plist l] = [l].map PySeq.plist from rfl,
        writeDescs_plists [l] (by simpa using hv)]
    simp [List.append_assoc]
  · exact padded_length l

/-- Witness for `desc_list_normalization` at the one-element
descriptor `[7]`. -/
theorem desc_list_normalization_witness :
    write_vsfm_sift (fun a : Nat => a) [] [PySeq.plist [7]] =
      .ok (sift_tag ++ u32le 0 ++ u32le 5 ++ u32le 128
           ++ (([7] : List Nat).take 128 ++ List.replicate (128 - ([7] : List Nat).length) 0)
           ++ [255, 69, 79, 70]) ∧
    (([7] : List Nat).take 128 ++ List.replicate (128 - ([7] : List Nat).length) 0).length = 128 :=
  desc_list_normalization [7] (by decide)

/-- Claim C9: `write_feature_matches` writes exactly three lines per
record in the order given -- the `"<nameA> <nameB> <count>"` header
line, the space-separated query-index line and the space-separated
train-index line -- and on the record `(0, 1, [(3,7),(4,8)])` with
filenames `{0: "a.sift", 1: "b.sift"}` the file is exactly
`"a.sift b.sift 2"`, `"3 4"`, `"7 8"`. -/
theorem write_feature_matches_lines :
    (∀ (ms : List (Nat × Nat × List DMatch)) (f : Nat → String),
        write_feature_matches ms f = matchFileText f ms) ∧
    write_feature_matches [(0, 1, [{ queryIdx := 3, trainIdx := 7 },
                                   { queryIdx := 4, trainIdx := 8 }])]
        (fun n => if n = 0 then "a.sift" else "b.sift")
      = "a.sift b.sift 2" ++ "\n" ++ "3 4" ++ "\n" ++ "7 8" ++ "\n" := by
  constructor
  · intro ms f
    rw [write_feature_matches, write_feature_matches_go f ms ""]
    rfl
  · decide

/-- Claim C5: with a finite timeout and a socket that never delivers a
completion marker, `wait_until_complete` checks elapsed time against the
timeout at the end of every iteration (the loop is still waiting through
every iteration whose clock reading does not exceed the deadline), and
the first iteration whose reading does transitions the loop to the
timed-out state: `waiting` turns false with `timedOut` set and
`completed` unset, so the wait stops.  The loop body raises nothing (the
empty-buffer `recv` failure is swallowed by the bare `except`), and the
outcome is this final state, returned -- not thrown -- to the caller. -/
theorem wait_until_complete_times_out (recvO : Nat → Option String)
    (clock : Nat → ℚ) (tbegin t : ℚ) (N : Nat)
    (hflag : ∀ i c, recvO i = some c → hasFlag c = false)
    (hN : clock N - tbegin > t)
    (hMin : ∀ m, m < N → ¬ (clock m - tbegin > t)) :
    (∀ m, m ≤ N → (waitRun recvO clock tbegin (some t) m).waiting = true) ∧
    (waitRun recvO clock tbegin (some t) (N + 1)).waiting = false ∧
    (waitRun recvO clock tbegin (some t) (N + 1)).timedOut = true ∧
    (waitRun recvO clock tbegin (some t) (N + 1)).completed = false := by
  have hinv := waitRun_inv recvO clock tbegin t N hflag hMin
  refine ⟨fun m hm => (hinv m hm).1, ?_, ?_, ?_⟩ <;>
  · obtain ⟨hw, hf, hc, _⟩ := hinv N (by omega)
    simp only [waitRun, waitStep, hw, if_true]
    cases hrecv : recvO N with
    | some c => simp [hrecv, if_pos hN, hc]
    | none => simp [hrecv, hf, if_pos hN, hc]

/-- Witness for `wait_until_complete_times_out`: a socket yielding no
data, an integer-valued clock starting at 0 and a timeout of 0 time out
on the second iteration. -/
theorem wait_until_complete_times_out_witness :
    (waitRun (fun _ => none) (fun i => (i : ℚ)) 0 (some 0) 2).waiting = false ∧
    (waitRun (fun _ => none) (fun i => (i : ℚ)) 0 (some 0) 2).timedOut = true ∧
    (waitRun (fun _ => none) (fun i => (i : ℚ)) 0 (some 0) 2).completed = false := by
  have h := wait_until_complete_times_out (fun _ => none) (fun i => (i : ℚ)) 0 0 1
    (fun i c hc => by cases hc)
    (by norm_num)
    (fun m hm => by
      have hm0 : m = 0 := by omega
      subst hm0
      norm_num)
  exact ⟨h.2.1, h.2.2.1, h.2.2.2⟩

/-- Claim C6: every byte stream `write_vsfm_sift` produces starts with
the 8 ASCII tag bytes `"SIFTV4.0"` followed by the feature count and the
constants 5 and 128, each a 4-byte little-endian unsigned field -- a
20-byte header with the count at byte offset 8 -- and ends with the
trailer byte 0xFF followed by the ASCII bytes `"EOF"`. -/
theorem sift_header_trailer {D : Type} (d2r : D → Nat) (kps : List (KeyPoint D))
    (descs : List PySeq) (out : List Nat)
    (h : write_vsfm_sift d2r kps descs = .ok out) :
    out.take 20 = sift_tag ++ u32le kps.length ++ u32le 5 ++ u32le 128 ∧
    (sift_tag ++ u32le kps.length ++ u32le 5 ++ u32le 128).length = 20 ∧
    (out.drop 8).take 4 = u32le kps.length ∧
    out.drop (out.length - 4) = [255, 69, 79, 70] := by
  rw [write_vsfm_sift] at h
  by_cases hn : kps.length < 4294967296
  swap
  · rw [if_neg hn] at h; cases h
  rw [if_pos hn] at h
  cases hw : writeDescs descs with
  | error e => rw [hw] at h; cases h
  | ok db =>
    rw [hw] at h
    injection h with h
    subst h
    have hlen20 : (sift_tag ++ u32le kps.length ++ u32le 5 ++ u32le 128).length = 20 := by
      simp [sift_tag, u32le]
    refine ⟨?_, hlen20, ?_, ?_⟩
    · have hg : sift_tag ++ u32le kps.length ++ u32le 5 ++ u32le 128
          ++ (kps.map (packLoc d2r)).flatten ++ db ++ [255, 69, 79, 70]
          = (sift_tag ++ u32le kps.length ++ u32le 5 ++ u32le 128)
            ++ ((kps.map (packLoc d2r)).flatten ++ (db ++ [255, 69, 79, 70])) := by
        simp [List.append_assoc]
      rw [hg, List.take_left' hlen20]
    · have hg : sift_tag ++ u32le kps.length ++ u32le 5 ++ u32le 128
          ++ (kps.map (packLoc d2r)).flatten ++ db ++ [255, 69, 79, 70]
          = sift_tag ++ (u32le kps.length
            ++ (u32le 5 ++ u32le 128 ++ (kps.map (packLoc d2r)).flatten
                ++ db ++ [255, 69, 79, 70])) := by
        simp [List.append_assoc]
      rw [hg, List.drop_left' (show sift_tag.length = 8 from rfl),
          List.take_left' (u32le_length kps.length)]
    · have hg : sift_tag ++ u32le kps.length ++ u32le 5 ++ u32le 128
          ++ (kps.map (packLoc d2r)).flatten ++ db ++ [255, 69, 79, 70]
          = (sift_tag ++ u32le kps.length ++ u32le 5 ++ u32le 128
             ++ (kps.map (packLoc d2r)).flatten ++ db) ++ [255, 69, 79, 70] := rfl
      rw [hg, List.drop_left' ?hpre]
      case hpre =>
        simp only [List.length_append, List.length_cons, List.length_nil]
        omega

/-- Witness for `sift_header_trailer` at one concrete keypoint and no
descriptors. -/
theorem sift_header_trailer_witness :
    ((sift_tag ++ u32le 1 ++ u32le 5 ++ u32le 128
      ++ (u32le 1 ++ u32le 2 ++ [0, 0, 0, 0] ++ u32le 3 ++ u32le 4)
      ++ [255, 69, 79, 70]).take 20
        = sift_tag ++ u32le 1 ++ u32le 5 ++ u32le 128) ∧
    (sift_tag ++ u32le 1 ++ u32le 5 ++ u32le 128).length = 20 ∧
    (((sift_tag ++ u32le 1 ++ u32le 5 ++ u32le 128
      ++ (u32le 1 ++ u32le 2 ++ [0, 0, 0, 0] ++ u32le 3 ++ u32le 4)
      ++ [255, 69, 79, 70]).drop 8).take 4 = u32le 1) ∧
    ((sift_tag ++ u32le 1 ++ u32le 5 ++ u32le 128
      ++ (u32le 1 ++ u32le 2 ++ [0, 0, 0, 0] ++ u32le 3 ++ u32le 4)
      ++ [255, 69, 79, 70]).drop
        ((sift_tag ++ u32le 1 ++ u32le 5 ++ u32le 128
          ++ (u32le 1 ++ u32le 2 ++ [0, 0, 0, 0] ++ u32le 3 ++ u32le 4)
          ++ [255, 69, 79, 70]).length - 4) = [255, 69, 79, 70]) :=
  sift_header_trailer (fun a : Nat => a)
    [{ x := 1, y := 2, size := 3, angle := 4 }] []
    (sift_tag ++ u32le 1 ++ u32le 5 ++ u32le 128
      ++ (u32le 1 ++ u32le 2 ++ [0, 0, 0, 0] ++ u32le 3 ++ u32le 4)
      ++ [255, 69, 79, 70])
    (by rfl)

/-- Claim C8: a byte stream too short for the 20-byte header, or too
short for the location-record and descriptor-record regions its declared
count requires (in particular one truncated mid-descriptor-block), makes
`read_vsfm_sift` fail -- `struct.unpack_from` raises on the short read --
and no partially populated result is returned. -/
theorem read_truncated_fails {D : Type} (r2d : Nat → D) (bs : List Nat)
    (h : bs.length < 20 ∨ bs.length < 20 + 148 * sift_count bs) :
    exceptOk (read_vsfm_sift r2d bs) = false := by
  rw [read_vsfm_sift]
  by_cases h20 : bs.length < 20
  · rw [if_pos h20]; rfl
  rw [if_neg h20]
  by_cases htag : (bs.take 8).all (fun b => b < 128)
  swap
  · rw [if_neg htag]; rfl
  rw [if_pos htag]
  have hlt : bs.length < 20 + 148 * sift_count bs := by
    rcases h with h | h
    · omega
    · exact h
  by_cases hloc : (bs.drop 20).length < 20 * sift_count bs
  · rw [readLocs_short _ _ hloc]; rfl
  · have hle : 20 * sift_count bs ≤ (bs.drop 20).length := by omega
    obtain ⟨ls, hls⟩ := readLocs_enough _ _ hle
    have hd : ((bs.drop 20).drop (20 * sift_count bs)).length < 128 * sift_count bs := by
      simp only [List.length_drop] at hloc hle ⊢
      omega
    simp only [hls, readDescs_short _ _ hd]
    rfl

/-- Witness for `read_truncated_fails` at a header declaring two features
followed by no record bytes at all. -/
theorem read_truncated_fails_witness :
    exceptOk (read_vsfm_sift (fun a : Nat => a)
      (sift_tag ++ u32le 2 ++ u32le 5 ++ u32le 128)) = false :=
  read_truncated_fails _ _ (by decide)

/-- Claim C10: whenever `read_vsfm_sift` succeeds on a byte stream, the
keypoint list and the descriptor list both have exactly the length the
header's count field declares, and every descriptor is a sequence of
exactly 128 byte values -- the decoded result always has equal keypoint
and descriptor counts. -/
theorem read_ok_invariants {D : Type} (r2d : Nat → D) (bs : List Nat)
    (kps : List (KeyPoint D)) (descs : List (List Nat))
    (hbytes : ∀ b ∈ bs, b < 256)
    (h : read_vsfm_sift r2d bs = .ok (kps, descs)) :
    kps.length = sift_count bs ∧ descs.length = sift_count bs ∧
    ∀ d ∈ descs, d.length = 128 ∧ ∀ v ∈ d, v < 256 := by
  rw [read_vsfm_sift] at h
  by_cases h20 : bs.length < 20
  · rw [if_pos h20] at h; cases h
  rw [if_neg h20] at h
  by_cases htag : (bs.take 8).all (fun b => b < 128)
  swap
  · rw [if_neg htag] at h; cases h
  rw [if_pos htag] at h
  cases hls : readLocs (sift_count bs) (bs.drop 20) with
  | error e => simp [hls] at h
  | ok p =>
    obtain ⟨ls, rest⟩ := p
    simp only [hls] at h
    cases hds : readDescs (sift_count bs) rest with
    | error e => simp [hds] at h
    | ok q =>
      obtain ⟨ds, buf⟩ := q
      simp only [hds] at h
      simp only [Except.ok.injEq, Prod.mk.injEq] at h
      obtain ⟨hk, hd⟩ := h
      obtain ⟨hlsl, hlsub⟩ := readLocs_ok_props _ _ _ _ hls
      obtain ⟨hdsl, hdsp⟩ := readDescs_ok_props _ _ _ _ hds
      subst hk
      subst hd
      refine ⟨by simp [List.length_map, hlsl], hdsl, ?_⟩
      intro d hdm
      obtain ⟨hl128, hsub⟩ := hdsp d hdm
      refine ⟨hl128, fun v hv => ?_⟩
      exact hbytes v (List.drop_subset 20 bs (hlsub (hsub hv)))

set_option maxRecDepth 4000 in
/-- Witness for `read_ok_invariants` at a concrete well-formed one-feature
file. -/
theorem read_ok_invariants_witness :
    ([{ x := 9, y := 10, size := 11, angle := 12 }] : List (KeyPoint Nat)).length
      = sift_count (sift_tag ++ u32le 1 ++ u32le 5 ++ u32le 128
          ++ (u32le 9 ++ u32le 10 ++ [0, 0, 0, 0] ++ u32le 11 ++ u32le 12)
          ++ List.replicate 128 6) ∧
    ([List.replicate 128 6] : List (List Nat)).length
      = sift_count (sift_tag ++ u32le 1 ++ u32le 5 ++ u32le 128
          ++ (u32le 9 ++ u32le 10 ++ [0, 0, 0, 0] ++ u32le 11 ++ u32le 12)
          ++ List.replicate 128 6) ∧
    ∀ d ∈ ([List.replicate 128 6] : List (List Nat)),
      d.length = 128 ∧ ∀ v ∈ d, v < 256 :=
  read_ok_invariants (fun a : Nat => a)
    (sift_tag ++ u32le 1 ++ u32le 5 ++ u32le 128
      ++ (u32le 9 ++ u32le 10 ++ [0, 0, 0, 0] ++ u32le 11 ++ u32le 12)
      ++ List.replicate 128 6)
    [{ x := 9, y := 10, size := 11, angle := 12 }]
    [List.replicate 128 6]
    (by decide)
    (by rfl)

/-- The header of a written stream is 20 bytes. -/
theorem sift_hdr_length (n : Nat) :
    (sift_tag ++ u32le n ++ u32le 5 ++ u32le 128).length = 20 := by
  simp [sift_tag, u32le]

/-- The first 8 bytes of a written stream are the tag. -/
theorem sift_stream_take8 (n : Nat) (rest : List Nat) :
    ((sift_tag ++ u32le n ++ u32le 5 ++ u32le 128) ++ rest).take 8 = sift_tag := by
  rw [(show (sift_tag ++ u32le n ++ u32le 5 ++ u32le 128) ++ rest
      = sift_tag ++ (u32le n ++ (u32le 5 ++ (u32le 128 ++ rest)))
      by simp [List.append_assoc])]
  exact List.take_left' rfl

/-- Reading the count field back from a written stream recovers `n`. -/
theorem sift_stream_count (n : Nat) (hn : n < 4294967296) (rest : List Nat) :
    sift_count ((sift_tag ++ u32le n ++ u32le 5 ++ u32le 128) ++ rest) = n := by
  rw [(show (sift_tag ++ u32le n ++ u32le 5 ++ u32le 128) ++ rest
      = sift_tag ++ (u32le n ++ (u32le 5 ++ (u32le 128 ++ rest)))
      by simp [List.append_assoc]),
    sift_count, List.drop_left' (show sift_tag.length = 8 from rfl),
    List.take_left' (u32le_length n), le32_u32le n hn]

/-- Dropping the 20 header bytes of a written stream exposes the rest. -/
theorem sift_stream_drop20 (n : Nat) (rest : List Nat) :
    ((sift_tag ++ u32le n ++ u32le 5 ++ u32le 128) ++ rest).drop 20 = rest :=
  List.drop_left' (sift_hdr_length n)

/-- Length of a written stream. -/
theorem sift_stream_length (n : Nat) (rest : List Nat) :
    ((sift_tag ++ u32le n ++ u32le 5 ++ u32le 128) ++ rest).length = 20 + rest.length := by
  rw [List.length_append, sift_hdr_length n]

/-- Claim C1: decoding the bytes `write_vsfm_sift` produced from a
FeatureSet whose descriptors are lists of 0-255 values of length at most
128 recovers keypoints whose x, y and scale equal the originals exactly,
whose orientation is exactly the image of the original under the
degree-to-radian conversion followed by the radian-to-degree conversion
(the claim's floating-point rounding of that composite), and descriptors
equal to the originals zero-padded on the right to 128. -/
theorem sift_round_trip {D : Type} (d2r : D → Nat) (r2d : Nat → D)
    (kps : List (KeyPoint D)) (descs : List (List Nat)) (out : List Nat)
    (hcnt : kps.length < 4294967296)
    (hkp : ∀ kp ∈ kps, kp.x < 4294967296 ∧ kp.y < 4294967296 ∧
           kp.size < 4294967296 ∧ d2r kp.angle < 4294967296)
    (hdl : ∀ d ∈ descs, d.length ≤ 128)
    (hdv : ∀ d ∈ descs, ∀ v ∈ d, v ≤ 255)
    (heq : kps.length = descs.length)
    (hout : write_vsfm_sift d2r kps (descs.map PySeq.plist) = .ok out) :
    read_vsfm_sift r2d out =
      .ok (kps.map (fun kp =>
            { x := kp.x, y := kp.y, size := kp.size, angle := r2d (d2r kp.angle) }),
           descs.map (fun d => d ++ List.replicate (128 - d.length) 0)) := by
  rw [write_vsfm_sift, if_pos hcnt, writeDescs_plists descs hdv] at hout
  injection hout with hout
  have hmap : descs.map (fun d => d.take 128 ++ List.replicate (128 - d.length) 0)
      = descs.map (fun d => d ++ List.replicate (128 - d.length) 0) :=
    List.map_congr_left (fun d hd => by rw [List.take_of_length_le (hdl d hd)])
  rw [hmap] at hout
  subst hout
  have hg : sift_tag ++ u32le kps.length ++ u32le 5 ++ u32le 128
      ++ (kps.map (packLoc d2r)).flatten
      ++ (descs.map (fun d => d ++ List.replicate (128 - d.length) 0)).flatten
      ++ [255, 69, 79, 70]
      = (sift_tag ++ u32le kps.length ++ u32le 5 ++ u32le 128)
        ++ ((kps.map (packLoc d2r)).flatten
            ++ ((descs.map (fun d => d ++ List.replicate (128 - d.length) 0)).flatten
                ++ [255, 69, 79, 70])) := by
    simp [List.append_assoc]
  rw [read_vsfm_sift, hg]
  rw [if_neg (by rw [sift_stream_length]; omega)]
  rw [if_pos (by rw [sift_stream_take8]; decide)]
  rw [sift_stream_count kps.length hcnt, sift_stream_drop20]
  simp only [readLocs_flatten d2r kps _ hkp]
  have hdlen : ∀ d ∈ descs.map (fun d => d ++ List.replicate (128 - d.length) 0),
      d.length = 128 := by
    intro d hd
    obtain ⟨a, ha, rfl⟩ := List.mem_map.mp hd
    simp only [List.length_append, List.length_replicate]
    have := hdl a ha
    omega
  rw [(show kps.length
        = (descs.map (fun d => d ++ List.replicate (128 - d.length) 0)).length
      by rw [List.length_map]; exact heq)]
  simp only [readDescs_flatten _ _ hdlen]
  simp only [List.map_map]
  rfl

set_option maxRecDepth 4000 in
/-- Witness for `sift_round_trip` at one keypoint and one two-value
descriptor, with the angle conversions instantiated to the identity. -/
theorem sift_round_trip_witness :
    read_vsfm_sift (fun a : Nat => a)
      (sift_tag ++ u32le 1 ++ u32le 5 ++ u32le 128
        ++ (u32le 1 ++ u32le 2 ++ [0, 0, 0, 0] ++ u32le 3 ++ u32le 4)
        ++ ([7, 8] ++ List.replicate 126 0) ++ [255, 69, 79, 70]) =
      .ok ([{ x := 1, y := 2, size := 3, angle := 4 }],
           [[7, 8] ++ List.replicate 126 0]) :=
  sift_round_trip (fun a : Nat => a) (fun a : Nat => a)
    [{ x := 1, y := 2, size := 3, angle := 4 }] [[7, 8]]
    (sift_tag ++ u32le 1 ++ u32le 5 ++ u32le 128
      ++ (u32le 1 ++ u32le 2 ++ [0, 0, 0, 0] ++ u32le 3 ++ u32le 4)
      ++ ([7, 8] ++ List.replicate 126 0) ++ [255, 69, 79, 70])
    (by decide) (by decide) (by decide) (by decide) (by decide) (by rfl)
